import Mathlib

/-!
Verification development for the `robust-pandas-workshop` repository
(`weatherlyser` package and workshop notebooks).

The repository's ingestion pipeline turns a validated archive query into a
wide (timestamp x (model, variable)) table and then a tidy
((timestamp, model) x variable) table, with schema validation at the
boundary.  A parallel loader reads a local CHMI spreadsheet archive.  The
notebooks also contain a small exercise function `multiply_large` that is
embedded here verbatim.

The `weatherlyser` package modules (`api_models.py`, `loader.py`,
`processors.py`, `pa_models.py`) are not part of the source tree available
here: only the notebooks that call them (and a quoted body of
`load_chmi_data`) are.  Definitions for those modules are therefore
modelled from the specification, as marked in their doc comments.

Conventions of the embedding:
* timestamps are `Nat` (hours on an absolute hourly grid);
* measured values are `Int` (the claims under study are about shapes,
  alignment and bounds, not float arithmetic); a missing value ("NaN"
  marker) is `none : Option Int`;
* dataframes are explicit structures of lists; Python exceptions are
  `Except` errors.
-/

/-- Modelled from the spec: the fixed vocabulary of hourly variable names
accepted by the Query Builder (`api_models.py` is not in the source tree). -/
def HOURLY_VARIABLES : List String :=
  ["temperature_2m", "relativehumidity_2m", "surface_pressure", "rain",
   "precipitation", "windspeed_10m", "weathercode"]

/-- Modelled from the spec: the fixed vocabulary of known model names
accepted by the Query Builder (`api_models.py` is not in the source tree). -/
def OPEN_METEO_MODELS : List String := ["best_match", "era5"]

/-- Modelled from the spec: the canonical variable vocabulary of the
TidyTable schema (`pa_models.py` is not in the source tree). -/
def CANONICAL_VARIABLES : List String :=
  ["temperature_2m", "humidity", "surface_pressure", "rain",
   "precipitation", "windspeed_10m", "weathercode"]

/-- Modelled from the spec: the fixed source-identifier to canonical-name
renaming applied by the Tidy Normalizer.  Canonical names are fixed points. -/
def renameVar (v : String) : String :=
  if v = "relativehumidity_2m" then "humidity" else v

/-- A calendar date (proleptic Gregorian, year >= 1 in all uses here). -/
structure Date where
  year : Nat
  month : Nat
  day : Nat
deriving DecidableEq, Repr

/-- Day count of a Gregorian date (days since 1 March of year 0), the
standard civil-calendar day-number formula.  Used to give the closed date
range of a query its length in days. -/
def Date.dayNumber (d : Date) : Nat :=
  let y := if d.month ≤ 2 then d.year - 1 else d.year
  let doy := (153 * (if d.month ≤ 2 then d.month + 9 else d.month - 3) + 2) / 5 + (d.day - 1)
  y * 365 + y / 4 + y / 400 + doy - y / 100

/-- Modelled from the spec: the immutable query description built by the
Query Builder (`api_models.ArchiveQueryParameters`; `api_models.py` is not
in the source tree).  Coordinates are rationals, the date range is closed,
`hourly` and `models` are the requested variable and model names. -/
structure ArchiveQueryParameters where
  latitude : Rat
  longitude : Rat
  hourly : List String
  start_date : Date
  end_date : Date
  models : List String
deriving DecidableEq

/-- Modelled from the spec: the list of field names whose declared domains
the query violates; empty iff the query is valid.  The Query Builder
validates every field and reports all violations, not just the first. -/
def queryViolations (q : ArchiveQueryParameters) : List String :=
  (if -90 ≤ q.latitude ∧ q.latitude ≤ 90 then [] else ["latitude"]) ++
  (if -180 ≤ q.longitude ∧ q.longitude ≤ 180 then [] else ["longitude"]) ++
  (if q.start_date.dayNumber ≤ q.end_date.dayNumber then [] else ["start_date"]) ++
  (if q.hourly ≠ [] ∧ ∀ v ∈ q.hourly, v ∈ HOURLY_VARIABLES then [] else ["hourly"]) ++
  (if q.models ≠ [] ∧ ∀ m ∈ q.models, m ∈ OPEN_METEO_MODELS then [] else ["models"])

/-- Modelled from the spec: Query Builder validation.  Pure construction:
returns the query on success, or a ValidationError listing every violated
field. -/
def validateArchiveQuery (q : ArchiveQueryParameters) :
    Except (List String) ArchiveQueryParameters :=
  if queryViolations q = [] then .ok q else .error (queryViolations q)

/-- Spec-side predicate (written from the spec's words, for comparison with
the validator): all fields of the query lie in their declared domains. -/
def queryDomainsOk (q : ArchiveQueryParameters) : Prop :=
  (-90 ≤ q.latitude ∧ q.latitude ≤ 90) ∧
  (-180 ≤ q.longitude ∧ q.longitude ≤ 180) ∧
  (q.start_date.dayNumber ≤ q.end_date.dayNumber) ∧
  (q.hourly ≠ [] ∧ ∀ v ∈ q.hourly, v ∈ HOURLY_VARIABLES) ∧
  (q.models ≠ [] ∧ ∀ m ∈ q.models, m ∈ OPEN_METEO_MODELS)

instance (q : ArchiveQueryParameters) : Decidable (queryDomainsOk q) := by
  unfold queryDomainsOk; infer_instance

/-- Spec-side predicate: field `f` is one of the query's violated fields. -/
def fieldViolated (q : ArchiveQueryParameters) (f : String) : Prop :=
  (f = "latitude" ∧ ¬(-90 ≤ q.latitude ∧ q.latitude ≤ 90)) ∨
  (f = "longitude" ∧ ¬(-180 ≤ q.longitude ∧ q.longitude ≤ 180)) ∨
  (f = "start_date" ∧ ¬(q.start_date.dayNumber ≤ q.end_date.dayNumber)) ∨
  (f = "hourly" ∧ ¬(q.hourly ≠ [] ∧ ∀ v ∈ q.hourly, v ∈ HOURLY_VARIABLES)) ∨
  (f = "models" ∧ ¬(q.models ≠ [] ∧ ∀ m ∈ q.models, m ∈ OPEN_METEO_MODELS))

instance (q : ArchiveQueryParameters) (f : String) : Decidable (fieldViolated q f) := by
  unfold fieldViolated; infer_instance

/-- Modelled from the spec: one model's worth of the RawResponse — the
per-variable hourly arrays aligned to the model's timestamp axis
(`loader.py` / `api_models.py` are not in the source tree). -/
structure ModelHourlyData where
  model : String
  time : List Nat
  values : List (String × List Int)
deriving DecidableEq

/-- The hourly timestamp grid covered by the closed date range `[s, e]`:
24 hours for every calendar day from `s` to `e` inclusive. -/
def hoursOfRange (s e : Date) : List Nat :=
  (List.range (24 * (e.dayNumber + 1 - s.dayNumber))).map (fun h => 24 * s.dayNumber + h)

/-- Modelled from the spec: the Remote Fetcher
(`loader.load_open_meteo_archive_data`; `loader.py` is not in the source
tree).  The remote archive's data is abstracted as the function `val`; for
each queried model the reply carries, per requested variable, an array
aligned to the hourly grid of the closed date range. -/
def load_open_meteo_archive_data (val : String → String → Nat → Int)
    (q : ArchiveQueryParameters) : List ModelHourlyData :=
  q.models.map (fun m =>
    { model := m
      time := hoursOfRange q.start_date q.end_date
      values := q.hourly.map (fun v =>
        (v, (hoursOfRange q.start_date q.end_date).map (fun t => val m v t))) })

/-- Insert a timestamp into a strictly increasing list, keeping it strictly
increasing (duplicates are absorbed). -/
def insertSorted (t : Nat) : List Nat → List Nat
  | [] => [t]
  | a :: l => if t < a then t :: a :: l else if t = a then a :: l else a :: insertSorted t l

/-- Insert every timestamp of `ts` into the accumulator. -/
def insertAll (acc : List Nat) (ts : List Nat) : List Nat :=
  ts.foldl (fun a t => insertSorted t a) acc

/-- The sorted, duplicate-free union of several timestamp lists: the shared
row axis of the wide table. -/
def sortedUnion (ls : List (List Nat)) : List Nat :=
  ls.foldl insertAll []

/-- The wide table: one row per timestamp of the shared index, one column
per (model, variable) pair, each column aligned to the index with `none`
as the missing-value marker. -/
structure WideTable where
  index : List Nat
  cols : List ((String × String) × List (Option Int))
deriving DecidableEq

/-- Value of a variable's array at timestamp `t`, through the position of
`t` in the model's own timestamp axis; `none` if the model's response does
not cover `t`. -/
def lookupTime (times : List Nat) (vals : List Int) (t : Nat) : Option Int :=
  (times.findIdx? (fun x => decide (x = t))).bind (fun i => vals[i]?)

/-- Modelled from the spec: the Wide Reshaper
(`processors.open_meteo_response_to_dataframe`; `processors.py` is not in
the source tree).  Aligns the per-model responses on the sorted union of
their timestamp axes and produces one column per (model, variable) pair,
with missing-value markers where a model's response does not cover a
timestamp. -/
def open_meteo_response_to_dataframe (rs : List ModelHourlyData) : WideTable :=
  { index := sortedUnion (rs.map (fun r => r.time))
    cols := rs.flatMap (fun r => r.values.map (fun p =>
      ((r.model, p.1),
        (sortedUnion (rs.map (fun r2 => r2.time))).map (fun t => lookupTime r.time p.2 t)))) }

/-- Auxiliary for `firstOccs`: drop the elements already `seen`. -/
def firstOccsAux {α : Type} [DecidableEq α] (seen : List α) : List α → List α
  | [] => []
  | a :: l => if a ∈ seen then firstOccsAux seen l else a :: firstOccsAux (a :: seen) l

/-- First occurrence of every element, in order of first appearance
(the distinct values of a column, as `pandas` would enumerate them). -/
def firstOccs {α : Type} [DecidableEq α] (l : List α) : List α :=
  firstOccsAux [] l

/-- The tidy table: rows indexed by (timestamp, model), one column per
canonical variable name. -/
structure TidyTable where
  rows : List (Nat × String)
  vars : List String
  data : List (List (Option Int))
deriving DecidableEq

/-- The cell of a wide table at (timestamp `t`, model `m`, variable `v`):
first matching column, entry at the position of `t` in the row index. -/
def wideCell (W : WideTable) (t : Nat) (m v : String) : Option Int :=
  (W.cols.find? (fun c => decide (c.1 = (m, v)))).bind (fun c =>
    (W.index.findIdx? (fun x => decide (x = t))).bind (fun i => (c.2[i]?).join))

/-- The distinct models of a wide table's column hierarchy. -/
def tidyModels (W : WideTable) : List String :=
  firstOccs (W.cols.map (fun c => c.1.1))

/-- The distinct source variable names of a wide table's column hierarchy. -/
def tidyVarsSrc (W : WideTable) : List String :=
  firstOccs (W.cols.map (fun c => c.1.2))

/-- Modelled from the spec: the Tidy Normalizer
(`processors.tidy_open_meteo_dataframe`; `processors.py` is not in the
source tree).  Pivots the (model, variable) column hierarchy into a
(timestamp, model) row index with one column per variable, renaming source
variable identifiers to the canonical vocabulary. -/
def tidy_open_meteo_dataframe (W : WideTable) : TidyTable :=
  { rows := W.index.flatMap (fun t => (tidyModels W).map (fun m => (t, m)))
    vars := (tidyVarsSrc W).map renameVar
    data := W.index.flatMap (fun t => (tidyModels W).map (fun m =>
      (tidyVarsSrc W).map (fun v => wideCell W t m v))) }

/-- The cell of a tidy table at row (t, m), variable `v`. -/
def tidyCell (T : TidyTable) (t : Nat) (m v : String) : Option Int :=
  ((T.rows.zip T.data).find? (fun p => decide (p.1 = (t, m)))).bind (fun p =>
    (T.vars.findIdx? (fun x => decide (x = v))).bind (fun j => (p.2[j]?).join))

/-- The distinct timestamps of a tidy table's row index, in order. -/
def wideIndexOfTidy (T : TidyTable) : List Nat :=
  firstOccs (T.rows.map Prod.fst)

/-- The distinct models of a tidy table's row index, in order. -/
def wideModelsOfTidy (T : TidyTable) : List String :=
  firstOccs (T.rows.map Prod.snd)

/-- The WideTable form equivalent to a tidy table: rows become the distinct
timestamps, and each (model, variable) pair becomes a column read back out
of the tidy rows. -/
def wideFormOfTidy (T : TidyTable) : WideTable :=
  { index := wideIndexOfTidy T
    cols := (wideModelsOfTidy T).flatMap (fun m => T.vars.map (fun v =>
      ((m, v), (wideIndexOfTidy T).map (fun t => tidyCell T t m v)))) }

/-- Modelled from the spec: the violations found by TidyTable schema
validation (`pa_models.py` is not in the source tree) — columns outside the
canonical vocabulary, and humidity values outside the declared range
[0, 100] (missing values are nullable, hence allowed). -/
def tidyViolations (T : TidyTable) : List String :=
  (T.vars.filter (fun v => !decide (v ∈ CANONICAL_VARIABLES))) ++
  (match T.vars.findIdx? (fun v => decide (v = "humidity")) with
   | none => []
   | some j =>
     if T.data.all (fun row =>
        match row[j]? with
        | some (some x) => decide (0 ≤ x ∧ x ≤ 100)
        | _ => true) then [] else ["humidity"])

/-- Modelled from the spec: TidyTable schema validation.  Returns the table
on success, or a SchemaError listing every failing column. -/
def validateTidyTable (T : TidyTable) : Except (List String) TidyTable :=
  if tidyViolations T = [] then .ok T else .error (tidyViolations T)

/-- Modelled from the spec: the localized-to-canonical column translation
table of the CHMI loader (`CZ_EN_TRANSLATION` in `loader.py`, which is not
in the source tree; the canonical column names are those listed in the
data-loading notebook).  ASCII transliterations stand in for the Czech
source labels. -/
def CZ_EN_TRANSLATION : List (String × String) :=
  [("teplota prumerna", "average temperature"),
   ("teplota maximalni", "maximum temperature"),
   ("teplota minimalni", "minimum temperature"),
   ("rychlost vetru", "wind speed"),
   ("tlak vzduchu", "air pressure"),
   ("vlhkost vzduchu", "humidity"),
   ("uhrn srazek", "precipitation"),
   ("celkova vyska snehu", "total snow depth"),
   ("slunecni svit", "sunshine")]

/-- Translate one localized column label through `CZ_EN_TRANSLATION`
(labels without a translation are kept unchanged). -/
def renameChmiColumn (c : String) : String :=
  ((CZ_EN_TRANSLATION.find? (fun p => decide (p.1 = c))).map Prod.snd).getD c

/-- The column rename `lambda c: c.replace(" ", "_")` of `load_chmi_data`. -/
def underscoreColumn (s : String) : String :=
  String.mk (s.data.map (fun ch => if ch = ' ' then '_' else ch))

/-- The canonical column set of the `CHMIDailyDataFrame` schema, as listed
in the data-loading notebook's exercise. -/
def CHMI_COLUMNS : List String :=
  ["average_temperature", "maximum_temperature", "minimum_temperature",
   "wind_speed", "air_pressure", "humidity", "precipitation",
   "total_snow_depth", "sunshine"]

/-- Modelled from the spec: one sheet of the local spreadsheet archive — a
localized column label and the (date, value) cells below a block of
presentation-only rows. -/
structure ChmiSheet where
  label : String
  presentationRows : Nat
  cells : List (Nat × Rat)
deriving DecidableEq

/-- Modelled from the spec: sheet cleaning
(`loader.extract_and_clean_chmi_excel_sheet`, not in the source tree) —
strip the presentation-only rows, keep the label and the date-indexed
series. -/
def extract_and_clean_chmi_excel_sheet (s : ChmiSheet) : String × List (Nat × Rat) :=
  (s.label, s.cells.drop s.presentationRows)

/-- The column-concatenated historical archive table: one date-indexed
column per data sheet. -/
structure ChmiTable where
  cols : List (String × List (Nat × Rat))
deriving DecidableEq

/-- The error taxonomy of the Historical Archive Loader. -/
inductive ChmiLoadError where
  | fileFormatError
  | schemaError
deriving DecidableEq

/-- The table built by `load_chmi_data` before validation: every sheet but
the first, cleaned, concatenated column-wise, columns renamed through
`CZ_EN_TRANSLATION` and then space-to-underscore. -/
def chmiRawTable (file : List ChmiSheet) : ChmiTable :=
  { cols := (file.tail.map extract_and_clean_chmi_excel_sheet).map
      (fun p => (underscoreColumn (renameChmiColumn p.1), p.2)) }

/-- Modelled from the spec: the `CHMIDailyDataFrame` schema check
(`pa_models.py` is not in the source tree) — every canonical column must
be present. -/
def chmiSchemaOk (t : ChmiTable) : Bool :=
  CHMI_COLUMNS.all (fun c => decide (c ∈ t.cols.map Prod.fst))

/-- The Historical Archive Loader (`loader.load_chmi_data`).  The body is
quoted in the data-loading notebook: open the workbook, read every sheet
but the first through `extract_and_clean_chmi_excel_sheet`, concatenate
column-wise, rename columns, and validate the result against
`CHMIDailyDataFrame` (the `@pa.check_types` decorator).  A workbook whose
sheet structure cannot be read at all is a file-format failure; a table
that fails the post-load schema validation is a schema failure. -/
def load_chmi_data (file : List ChmiSheet) : Except ChmiLoadError ChmiTable :=
  if file = [] then .error .fileFormatError
  else if chmiSchemaOk (chmiRawTable file) then .ok (chmiRawTable file)
  else .error .schemaError

/-- A row of the notebook's `DFModel` dataframe
(`06_hypothesis_testing`): `column1 : int`, `column2 : float` nullable,
`column3 : str`. -/
structure DFRow where
  column1 : Int
  column2 : Option Rat
  column3 : String
deriving DecidableEq

/-- A dataframe of `DFRow`s with its row-label index. -/
structure PdDataFrame where
  index : List Int
  rows : List DFRow
deriving DecidableEq

/-- The notebook's `multiply_large` (source: `06_hypothesis_testing`):
`pd.concat([df] + [df[df["column1"] > limit]] * 2).reset_index(drop=True)`
— the original rows followed by two copies of the rows whose `column1`
exceeds `limit`, under a fresh zero-based integer index. -/
def multiply_large (df : PdDataFrame) (limit : Int) : PdDataFrame :=
  let pairs := df.index.zip df.rows
  let large := pairs.filter (fun p => decide (limit < p.2.column1))
  let concatd := pairs ++ large ++ large
  { index := (List.range concatd.length).map Int.ofNat
    rows := concatd.map Prod.snd }

/-- The spec's scenario query: latitude 50.10, longitude 14.26, the closed
date range 2010-03-21 to 2010-03-31, one variable, one model. -/
def scenarioQuery : ArchiveQueryParameters :=
  { latitude := 50.1, longitude := 14.26, hourly := ["temperature_2m"],
    start_date := ⟨2010, 3, 21⟩, end_date := ⟨2010, 3, 31⟩, models := ["best_match"] }

/-- A placeholder remote archive whose every value is 0; the scenario's
claims concern only shapes, not values. -/
def zeroArchive : String → String → Nat → Int := fun _ _ _ => 0

/-- A complete sample CHMI workbook: a cover sheet followed by one data
sheet per translated variable. -/
def chmiGoodFile : List ChmiSheet :=
  ⟨"cover", 0, []⟩ :: CZ_EN_TRANSLATION.map (fun p => ⟨p.1, 1, [(0, 1), (1, 2)]⟩)

/-- The sample CHMI workbook with its first data sheet missing. -/
def chmiMissingSheetFile : List ChmiSheet :=
  ⟨"cover", 0, []⟩ :: CZ_EN_TRANSLATION.tail.map (fun p => ⟨p.1, 1, [(0, 1), (1, 2)]⟩)

theorem mem_insertSorted {t x : Nat} {l : List Nat} :
    x ∈ insertSorted t l ↔ x = t ∨ x ∈ l := by
  induction l with
  | nil => simp [insertSorted]
  | cons a l ih =>
    simp only [insertSorted]
    split
    · simp [List.mem_cons]
    · split
      · rename_i h1 h2
        subst h2
        simp [List.mem_cons]
      · simp only [List.mem_cons, ih]
        tauto

theorem sorted_insertSorted {t : Nat} {l : List Nat}
    (h : l.Sorted (· < ·)) : (insertSorted t l).Sorted (· < ·) := by
  induction l with
  | nil => simp [insertSorted]
  | cons a l ih =>
    rw [List.sorted_cons] at h
    simp only [insertSorted]
    split
    · rename_i hta
      rw [List.sorted_cons]
      refine ⟨?_, List.sorted_cons.mpr h⟩
      intro b hb
      rcases List.mem_cons.mp hb with hb | hb
      · omega
      · exact Nat.lt_trans hta (h.1 b hb)
    · split
      · exact List.sorted_cons.mpr h
      · rename_i h1 h2
        have hat : a < t := by omega
        rw [List.sorted_cons]
        refine ⟨?_, ih h.2⟩
        intro b hb
        rcases mem_insertSorted.mp hb with hb | hb
        · omega
        · exact h.1 b hb

theorem mem_insertAll {x : Nat} {acc ts : List Nat} :
    x ∈ insertAll acc ts ↔ x ∈ acc ∨ x ∈ ts := by
  induction ts generalizing acc with
  | nil => simp [insertAll]
  | cons a ts ih =>
    simp only [insertAll, List.foldl_cons] at *
    rw [ih, mem_insertSorted]
    simp [List.mem_cons]
    tauto

theorem sorted_insertAll {acc ts : List Nat}
    (h : acc.Sorted (· < ·)) : (insertAll acc ts).Sorted (· < ·) := by
  induction ts generalizing acc with
  | nil => simpa [insertAll] using h
  | cons a ts ih =>
    simp only [insertAll, List.foldl_cons] at *
    exact ih (sorted_insertSorted h)

theorem mem_sortedUnion {x : Nat} {ls : List (List Nat)} :
    x ∈ sortedUnion ls ↔ ∃ l ∈ ls, x ∈ l := by
  suffices h : ∀ acc, x ∈ ls.foldl insertAll acc ↔ x ∈ acc ∨ ∃ l ∈ ls, x ∈ l by
    simpa [sortedUnion] using h []
  induction ls with
  | nil => simp
  | cons l ls ih =>
    intro acc
    simp only [List.foldl_cons, ih, mem_insertAll]
    simp only [List.mem_cons]
    constructor
    · rintro ((h | h) | ⟨l', hl', hx⟩)
      · exact Or.inl h
      · exact Or.inr ⟨l, Or.inl rfl, h⟩
      · exact Or.inr ⟨l', Or.inr hl', hx⟩
    · rintro (h | ⟨l', (rfl | hl'), hx⟩)
      · exact Or.inl (Or.inl h)
      · exact Or.inl (Or.inr hx)
      · exact Or.inr ⟨l', hl', hx⟩

theorem sortedUnion_sorted (ls : List (List Nat)) :
    (sortedUnion ls).Sorted (· < ·) := by
  suffices h : ∀ acc, acc.Sorted (· < ·) → (ls.foldl insertAll acc).Sorted (· < ·) by
    exact h [] (by simp)
  induction ls with
  | nil => intro acc h; simpa using h
  | cons l ls ih =>
    intro acc h
    simp only [List.foldl_cons]
    exact ih _ (sorted_insertAll h)

theorem sortedUnion_nodup (ls : List (List Nat)) : (sortedUnion ls).Nodup :=
  (sortedUnion_sorted ls).nodup

theorem mem_firstOccsAux {α : Type} [DecidableEq α] {x : α} {seen l : List α} :
    x ∈ firstOccsAux seen l ↔ x ∈ l ∧ x ∉ seen := by
  induction l generalizing seen with
  | nil => simp [firstOccsAux]
  | cons a l ih =>
    simp only [firstOccsAux]
    split
    · rename_i ha
      rw [ih]
      simp only [List.mem_cons]
      constructor
      · rintro ⟨h1, h2⟩; exact ⟨Or.inr h1, h2⟩
      · rintro ⟨(rfl | h1), h2⟩
        · exact absurd ha h2
        · exact ⟨h1, h2⟩
    · rename_i ha
      simp only [List.mem_cons, ih, List.mem_cons]
      by_cases hxa : x = a
      · subst hxa
        simp [ha]
      · simp [hxa]

theorem nodup_firstOccsAux {α : Type} [DecidableEq α] {seen l : List α} :
    (firstOccsAux seen l).Nodup := by
  induction l generalizing seen with
  | nil => simp [firstOccsAux]
  | cons a l ih =>
    simp only [firstOccsAux]
    split
    · exact ih
    · refine List.Nodup.cons ?_ ih
      intro ha
      exact (mem_firstOccsAux.mp ha).2 (List.mem_cons_self a seen)

theorem firstOccsAux_eq_nil {α : Type} [DecidableEq α] {seen l : List α}
    (h : ∀ x ∈ l, x ∈ seen) : firstOccsAux seen l = [] := by
  induction l with
  | nil => rfl
  | cons a l ih =>
    simp only [firstOccsAux, if_pos (h a (List.mem_cons_self a l))]
    exact ih (fun x hx => h x (List.mem_cons_of_mem a hx))

theorem firstOccsAux_append_skip {α : Type} [DecidableEq α] {seen l r : List α}
    (h : ∀ x ∈ l, x ∈ seen) : firstOccsAux seen (l ++ r) = firstOccsAux seen r := by
  induction l with
  | nil => rfl
  | cons a l ih =>
    simp only [List.cons_append, firstOccsAux, if_pos (h a (List.mem_cons_self a l))]
    exact ih (fun x hx => h x (List.mem_cons_of_mem a hx))

theorem firstOccsAux_append_subset {α : Type} [DecidableEq α] {seen l r : List α}
    (hl : l.Nodup) (hd : ∀ x ∈ l, x ∉ seen) (hr : ∀ x ∈ r, x ∈ l ∨ x ∈ seen) :
    firstOccsAux seen (l ++ r) = l := by
  induction l generalizing seen with
  | nil =>
    simp only [List.nil_append]
    exact firstOccsAux_eq_nil (fun x hx => (hr x hx).resolve_left (by simp))
  | cons a l ih =>
    simp only [List.cons_append, firstOccsAux,
      if_neg (hd a (List.mem_cons_self a l))]
    congr 1
    refine ih hl.of_cons ?_ ?_
    · intro x hx
      simp only [List.mem_cons, not_or]
      exact ⟨fun hxa => (hl.not_mem) (hxa ▸ hx), hd x (List.mem_cons_of_mem a hx)⟩
    · intro x hx
      rcases hr x hx with hxl | hxs
      · rcases List.mem_cons.mp hxl with rfl | hxl
        · exact Or.inr (List.mem_cons_self x seen)
        · exact Or.inl hxl
      · exact Or.inr (List.mem_cons_of_mem a hxs)

theorem mem_firstOccs {α : Type} [DecidableEq α] {x : α} {l : List α} :
    x ∈ firstOccs l ↔ x ∈ l := by
  simp [firstOccs, mem_firstOccsAux]

theorem nodup_firstOccs {α : Type} [DecidableEq α] {l : List α} :
    (firstOccs l).Nodup :=
  nodup_firstOccsAux

theorem firstOccs_eq_self {α : Type} [DecidableEq α] {l : List α}
    (h : l.Nodup) : firstOccs l = l := by
  simpa [firstOccs] using
    @firstOccsAux_append_subset _ _ [] _ [] h (by simp) (by simp)

theorem firstOccs_eq_nil_iff {α : Type} [DecidableEq α] {l : List α} :
    firstOccs l = [] ↔ l = [] := by
  cases l with
  | nil => simp [firstOccs, firstOccsAux]
  | cons a l => simp [firstOccs, firstOccsAux]

theorem firstOccs_append_subset {α : Type} [DecidableEq α] {l r : List α}
    (hl : l.Nodup) (hr : ∀ x ∈ r, x ∈ l) : firstOccs (l ++ r) = l :=
  firstOccsAux_append_subset hl (by simp) (fun x hx => Or.inl (hr x hx))

theorem firstOccsAux_flatMap_blocks {α ρ σ : Type} [DecidableEq α]
    (rs : List ρ) (f : ρ → α) (g : ρ → List σ) :
    ∀ seen : List α, (rs.map f).Nodup → (∀ r ∈ rs, g r ≠ []) →
      (∀ r ∈ rs, f r ∉ seen) →
      firstOccsAux seen (rs.flatMap (fun r => (g r).map (fun _ => f r))) = rs.map f := by
  induction rs with
  | nil => intro seen _ _ _; rfl
  | cons r rs ih =>
    intro seen hnd hne hseen
    have hgr : g r ≠ [] := hne r (List.mem_cons_self r rs)
    obtain ⟨b, bs, hb⟩ : ∃ b bs, g r = b :: bs := by
      cases hgr' : g r with
      | nil => exact absurd hgr' hgr
      | cons b bs => exact ⟨b, bs, rfl⟩
    simp only [List.flatMap_cons, hb, List.map_cons, List.cons_append, firstOccsAux,
      if_neg (hseen r (List.mem_cons_self r rs))]
    rw [firstOccsAux_append_skip (l := bs.map (fun _ => f r))
      (by intro x hx; rcases List.mem_map.mp hx with ⟨c, _, rfl⟩; exact List.mem_cons_self _ _)]
    congr 1
    refine ih (f r :: seen) (List.Nodup.of_cons (by simpa using hnd)) ?_ ?_
    · exact fun r' hr' => hne r' (List.mem_cons_of_mem r hr')
    · intro r' hr'
      simp only [List.mem_cons, not_or]
      constructor
      · intro hfr
        have : f r ∈ rs.map f := hfr ▸ List.mem_map_of_mem f hr'
        exact (List.nodup_cons.mp (by simpa using hnd)).1 this
      · exact hseen r' (List.mem_cons_of_mem r hr')

theorem firstOccs_flatMap_blocks {α ρ σ : Type} [DecidableEq α]
    {rs : List ρ} {f : ρ → α} {g : ρ → List σ}
    (hnd : (rs.map f).Nodup) (hne : ∀ r ∈ rs, g r ≠ []) :
    firstOccs (rs.flatMap (fun r => (g r).map (fun _ => f r))) = rs.map f :=
  firstOccsAux_flatMap_blocks rs f g [] hnd hne (by simp)

theorem firstOccs_flatMap_const {α ρ : Type} [DecidableEq α]
    {vs : List α} {ks : List ρ} (hv : vs.Nodup) (hk : ks ≠ []) :
    firstOccs (ks.flatMap (fun _ => vs)) = vs := by
  obtain ⟨k, ks', rfl⟩ : ∃ k ks', ks = k :: ks' := by
    cases ks with
    | nil => exact absurd rfl hk
    | cons k ks' => exact ⟨k, ks', rfl⟩
  simp only [List.flatMap_cons]
  refine firstOccs_append_subset hv ?_
  intro x hx
  rcases List.mem_flatMap.mp hx with ⟨_, _, hxv⟩
  exact hxv

theorem findIdx_map_get {α γ : Type} [DecidableEq α] {ts : List α} {t : α} (h : t ∈ ts) :
    ∃ i, ts.findIdx? (fun x => decide (x = t)) = some i ∧
      ∀ f : α → γ, (ts.map f)[i]? = some (f t) := by
  induction ts with
  | nil => cases h
  | cons a ts ih =>
    by_cases hat : a = t
    · subst hat
      exact ⟨0, by simp, fun f => by simp⟩
    · have ht : t ∈ ts := by
        rcases List.mem_cons.mp h with rfl | ht
        · exact absurd rfl hat
        · exact ht
      obtain ⟨i, hi, hf⟩ := ih ht
      refine ⟨i + 1, ?_, ?_⟩
      · rw [List.findIdx?_cons, if_neg (by simpa using hat), List.findIdx?_start_succ, hi]
        rfl
      · intro f
        simpa using hf f

theorem findIdx_map_inj_get {α β γ : Type} [DecidableEq β] {l : List α} {f : α → β} {v : α}
    (hnd : (l.map f).Nodup) (hv : v ∈ l) :
    ∃ j, (l.map f).findIdx? (fun x => decide (x = f v)) = some j ∧
      ∀ g : α → γ, (l.map g)[j]? = some (g v) := by
  induction l with
  | nil => cases hv
  | cons a l ih =>
    by_cases hav : f a = f v
    · rcases List.mem_cons.mp hv with rfl | hv'
      · exact ⟨0, by simp, fun g => by simp⟩
      · exfalso
        have : f v ∈ l.map f := List.mem_map_of_mem f hv'
        rw [List.map_cons] at hnd
        exact hnd.not_mem (hav ▸ this)
    · have hva : v ≠ a := fun hh => hav (hh ▸ rfl)
      have hv' : v ∈ l := by
        rcases List.mem_cons.mp hv with rfl | hv'
        · exact absurd rfl hva
        · exact hv'
      rw [List.map_cons] at hnd
      obtain ⟨j, hj, hg⟩ := ih hnd.of_cons hv'
      refine ⟨j + 1, ?_, ?_⟩
      · rw [List.map_cons, List.findIdx?_cons, if_neg (by simpa using hav),
          List.findIdx?_start_succ, hj]
        rfl
      · intro g
        simpa using hg g

theorem find_product_inner {α β γ : Type} [DecidableEq α] [DecidableEq β]
    {ms : List β} (h : β → γ) {t : α} {m : β} (hm : m ∈ ms) :
    (ms.map (fun b => (((t : α), b), h b))).find? (fun p => decide (p.1 = (t, m))) =
      some ((t, m), h m) := by
  induction ms with
  | nil => cases hm
  | cons b ms ih =>
    by_cases hbm : b = m
    · subst hbm
      simp [List.find?_cons]
    · have hm' : m ∈ ms := by
        rcases List.mem_cons.mp hm with rfl | hm'
        · exact absurd rfl hbm
        · exact hm'
      rw [List.map_cons, List.find?_cons,
        show (decide ((((t : α), b), h b).1 = (t, m))) = false from by simp [hbm]]
      exact ih hm'

theorem find_product_none {α β γ : Type} [DecidableEq α] [DecidableEq β]
    {ms : List β} (h : β → γ) {a t : α} {m : β} (ha : a ≠ t) :
    (ms.map (fun b => ((a, b), h b))).find? (fun p => decide (p.1 = (t, m))) = none := by
  rw [List.find?_eq_none]
  intro x hx
  rcases List.mem_map.mp hx with ⟨b, _, rfl⟩
  simp [ha]

theorem find_product {α β γ : Type} [DecidableEq α] [DecidableEq β]
    {ts : List α} {ms : List β} (h : α → β → γ) {t : α} {m : β}
    (ht : t ∈ ts) (hm : m ∈ ms) :
    (ts.flatMap (fun a => ms.map (fun b => ((a, b), h a b)))).find?
        (fun p => decide (p.1 = (t, m))) = some ((t, m), h t m) := by
  induction ts with
  | nil => cases ht
  | cons a ts ih =>
    rw [List.flatMap_cons, List.find?_append]
    by_cases hat : a = t
    · subst hat
      rw [find_product_inner (h a) hm]
      rfl
    · rw [find_product_none (h a) hat]
      have ht' : t ∈ ts := by
        rcases List.mem_cons.mp ht with rfl | ht'
        · exact absurd rfl hat
        · exact ht'
      rw [Option.none_or]
      exact ih ht'

theorem zip_flatMap_product {α β γ δ : Type} (ts : List α) (ms : List β)
    (g : α → β → γ) (h : α → β → δ) :
    (ts.flatMap (fun a => ms.map (g a))).zip (ts.flatMap (fun a => ms.map (h a))) =
      ts.flatMap (fun a => ms.map (fun b => (g a b, h a b))) := by
  induction ts with
  | nil => rfl
  | cons a ts ih =>
    rw [List.flatMap_cons, List.flatMap_cons, List.flatMap_cons,
      List.zip_append (by simp), ih, List.zip_map']

theorem length_flatMap_const {α β : Type} {l : List α} {f : α → List β} {k : Nat}
    (h : ∀ a ∈ l, (f a).length = k) : (l.flatMap f).length = l.length * k := by
  induction l with
  | nil => simp
  | cons a l ih =>
    rw [List.flatMap_cons, List.length_append, h a (List.mem_cons_self a l),
      ih (fun x hx => h x (List.mem_cons_of_mem a hx))]
    simp [Nat.succ_mul, Nat.add_comm]

theorem flatMap_congr_mem {α β : Type} {l : List α} {f g : α → List β}
    (h : ∀ a ∈ l, f a = g a) : l.flatMap f = l.flatMap g := by
  induction l with
  | nil => rfl
  | cons a l ih =>
    rw [List.flatMap_cons, List.flatMap_cons, h a (List.mem_cons_self a l),
      ih (fun x hx => h x (List.mem_cons_of_mem a hx))]

theorem flatMap_const_nil {α β : Type} (l : List α) :
    (l.flatMap (fun _ => ([] : List β))) = [] := by
  induction l with
  | nil => rfl
  | cons a l ih => rw [List.flatMap_cons, List.nil_append, ih]

theorem tidyModels_ne_nil {W : WideTable} (hc : W.cols ≠ []) : tidyModels W ≠ [] := by
  intro h
  rcases firstOccs_eq_nil_iff.mp h with h'
  exact hc (List.map_eq_nil_iff.mp h')

theorem tidyVarsSrc_ne_nil {W : WideTable} (hc : W.cols ≠ []) : tidyVarsSrc W ≠ [] := by
  intro h
  rcases firstOccs_eq_nil_iff.mp h with h'
  exact hc (List.map_eq_nil_iff.mp h')

theorem tidy_rows_map_fst (W : WideTable) :
    (tidy_open_meteo_dataframe W).rows.map Prod.fst =
      W.index.flatMap (fun t => (tidyModels W).map (fun _ => t)) := by
  rw [tidy_open_meteo_dataframe, List.map_flatMap]
  refine flatMap_congr_mem ?_
  intro t _
  rw [List.map_map]
  rfl

theorem tidy_rows_map_snd (W : WideTable) :
    (tidy_open_meteo_dataframe W).rows.map Prod.snd =
      W.index.flatMap (fun _ => tidyModels W) := by
  rw [tidy_open_meteo_dataframe, List.map_flatMap]
  refine flatMap_congr_mem ?_
  intro t _
  rw [List.map_map]
  simp

theorem wideIndexOfTidy_tidy {W : WideTable} (hnd : W.index.Nodup) (hc : W.cols ≠ []) :
    wideIndexOfTidy (tidy_open_meteo_dataframe W) = W.index := by
  rw [wideIndexOfTidy, tidy_rows_map_fst]
  have h := @firstOccs_flatMap_blocks _ _ _ _ W.index (fun t => t)
    (fun _ => tidyModels W) (by simpa using hnd)
    (fun r _ => tidyModels_ne_nil hc)
  simpa using h

theorem wideModelsOfTidy_tidy {W : WideTable} (hi : W.index ≠ []) :
    wideModelsOfTidy (tidy_open_meteo_dataframe W) = tidyModels W := by
  rw [wideModelsOfTidy, tidy_rows_map_snd]
  exact firstOccs_flatMap_const nodup_firstOccs hi

theorem renameVar_injOn :
    ∀ a ∈ HOURLY_VARIABLES, ∀ b ∈ HOURLY_VARIABLES, renameVar a = renameVar b → a = b := by
  decide

theorem renameVar_idem (v : String) : renameVar (renameVar v) = renameVar v := by
  by_cases h : v = "relativehumidity_2m" <;> simp [renameVar, h]

theorem tidy_vars_nodup {W : WideTable}
    (hv : ∀ c ∈ W.cols, c.1.2 ∈ HOURLY_VARIABLES) :
    ((tidyVarsSrc W).map renameVar).Nodup := by
  refine List.Nodup.map_on ?_ nodup_firstOccs
  intro x hx y hy hxy
  have hx' : x ∈ HOURLY_VARIABLES := by
    rcases List.mem_map.mp (mem_firstOccs.mp hx) with ⟨c, hc, rfl⟩
    exact hv c hc
  have hy' : y ∈ HOURLY_VARIABLES := by
    rcases List.mem_map.mp (mem_firstOccs.mp hy) with ⟨c, hc, rfl⟩
    exact hv c hc
  exact renameVar_injOn x hx' y hy' hxy

theorem wideCell_wideForm_tidy {W : WideTable}
    (hnd : W.index.Nodup)
    (hvars : ((tidyVarsSrc W).map renameVar).Nodup)
    (hc : W.cols ≠ []) (hi : W.index ≠ [])
    {t : Nat} {m v : String}
    (ht : t ∈ W.index) (hm : m ∈ tidyModels W) (hv : v ∈ tidyVarsSrc W) :
    wideCell (wideFormOfTidy (tidy_open_meteo_dataframe W)) t m (renameVar v) =
      wideCell W t m v := by
  have hidx : wideIndexOfTidy (tidy_open_meteo_dataframe W) = W.index :=
    wideIndexOfTidy_tidy hnd hc
  have hmod : wideModelsOfTidy (tidy_open_meteo_dataframe W) = tidyModels W :=
    wideModelsOfTidy_tidy hi
  set T := tidy_open_meteo_dataframe W with hT
  have hTvars : T.vars = (tidyVarsSrc W).map renameVar := by
    rw [hT]
    simp only [tidy_open_meteo_dataframe]
  have hrv : renameVar v ∈ T.vars := by
    rw [hTvars]
    exact List.mem_map_of_mem _ hv
  have hcols : (wideFormOfTidy T).cols =
      (tidyModels W).flatMap (fun m' => T.vars.map (fun v' =>
        ((m', v'), W.index.map (fun t' => tidyCell T t' m' v')))) := by
    simp only [wideFormOfTidy]
    rw [hmod, hidx]
  have hWFindex : (wideFormOfTidy T).index = W.index := by
    simp only [wideFormOfTidy]
    exact hidx
  obtain ⟨i, hfi, hgi⟩ := findIdx_map_get (γ := Option Int) ht
  have hstep1 : wideCell (wideFormOfTidy T) t m (renameVar v) =
      tidyCell T t m (renameVar v) := by
    simp only [wideCell]
    rw [hcols,
      find_product (h := fun m' v' => W.index.map (fun t' => tidyCell T t' m' v')) hm hrv]
    simp only [Option.some_bind]
    rw [hWFindex, hfi]
    simp only [Option.some_bind]
    rw [hgi (fun t' => tidyCell T t' m (renameVar v))]
    simp [Option.join]
  have hzip : T.rows.zip T.data =
      W.index.flatMap (fun t' => (tidyModels W).map (fun m' =>
        ((t', m'), (tidyVarsSrc W).map (fun v0 => wideCell W t' m' v0)))) := by
    rw [hT]
    exact zip_flatMap_product W.index (tidyModels W) (fun t' m' => (t', m'))
      (fun t' m' => (tidyVarsSrc W).map (fun v0 => wideCell W t' m' v0))
  obtain ⟨j, hj, hgj⟩ := findIdx_map_inj_get (γ := Option Int) hvars hv
  have hstep2 : tidyCell T t m (renameVar v) = wideCell W t m v := by
    simp only [tidyCell]
    rw [hzip,
      find_product (h := fun t' m' => (tidyVarsSrc W).map (fun v0 => wideCell W t' m' v0)) ht hm]
    simp only [Option.some_bind]
    rw [hTvars, hj]
    simp only [Option.some_bind]
    rw [hgj (fun v0 => wideCell W t m v0)]
    simp [Option.join]
  rw [hstep1, hstep2]

theorem TidyTable_ext {T1 T2 : TidyTable} (h1 : T1.rows = T2.rows)
    (h2 : T1.vars = T2.vars) (h3 : T1.data = T2.data) : T1 = T2 := by
  cases T1
  cases T2
  simp_all

theorem tidy_rows_eq (V : WideTable) :
    (tidy_open_meteo_dataframe V).rows =
      V.index.flatMap (fun t => (tidyModels V).map (fun m => (t, m))) := rfl

theorem tidy_vars_eq (V : WideTable) :
    (tidy_open_meteo_dataframe V).vars = (tidyVarsSrc V).map renameVar := rfl

theorem tidy_data_eq (V : WideTable) :
    (tidy_open_meteo_dataframe V).data =
      V.index.flatMap (fun t => (tidyModels V).map (fun m =>
        (tidyVarsSrc V).map (fun v => wideCell V t m v))) := rfl

theorem wideForm_tidy_cols (W : WideTable) (hnd : W.index.Nodup)
    (hc : W.cols ≠ []) (hi : W.index ≠ []) :
    (wideFormOfTidy (tidy_open_meteo_dataframe W)).cols =
      (tidyModels W).flatMap (fun m' => (((tidyVarsSrc W).map renameVar).map (fun v' =>
        ((m', v'),
          W.index.map (fun t' => tidyCell (tidy_open_meteo_dataframe W) t' m' v'))))) := by
  simp only [wideFormOfTidy]
  rw [wideModelsOfTidy_tidy hi, wideIndexOfTidy_tidy hnd hc, tidy_vars_eq]

theorem tidyModels_wideForm_tidy (W : WideTable) (hnd : W.index.Nodup)
    (hc : W.cols ≠ []) (hi : W.index ≠ []) :
    tidyModels (wideFormOfTidy (tidy_open_meteo_dataframe W)) = tidyModels W := by
  rw [tidyModels, wideForm_tidy_cols W hnd hc hi, List.map_flatMap]
  rw [flatMap_congr_mem (g := fun m' =>
      ((tidyVarsSrc W).map renameVar).map (fun _ => m'))
    (fun m' _ => by rw [List.map_map]; rfl)]
  have hvne : (tidyVarsSrc W).map renameVar ≠ [] := by
    simpa using tidyVarsSrc_ne_nil hc
  have h := @firstOccs_flatMap_blocks _ _ _ _ (tidyModels W) (fun m' => m')
    (fun _ => (tidyVarsSrc W).map renameVar)
    (by simpa using (nodup_firstOccs : (tidyModels W).Nodup))
    (fun r _ => hvne)
  simpa using h

theorem tidyVarsSrc_wideForm_tidy (W : WideTable) (hnd : W.index.Nodup)
    (hvoc : ∀ c ∈ W.cols, c.1.2 ∈ HOURLY_VARIABLES)
    (hc : W.cols ≠ []) (hi : W.index ≠ []) :
    tidyVarsSrc (wideFormOfTidy (tidy_open_meteo_dataframe W)) =
      (tidyVarsSrc W).map renameVar := by
  rw [tidyVarsSrc, wideForm_tidy_cols W hnd hc hi, List.map_flatMap]
  rw [flatMap_congr_mem (g := fun _ => (tidyVarsSrc W).map renameVar)
    (fun m' _ => by rw [List.map_map]; simp)]
  exact firstOccs_flatMap_const (tidy_vars_nodup hvoc) (tidyModels_ne_nil hc)

/-- C6: The Tidy Normalizer is idempotent: for a WideTable satisfying the
WideTable invariant (strictly increasing, duplicate-free row index;
variable names from the fixed vocabulary; columns indexed by the row axis),
normalizing the WideTable form equivalent to its own output yields exactly
the first result: tidy(wide_form(tidy W)) = tidy W. -/
theorem c6_tidy_normalizer_idempotent (W : WideTable)
    (hs : W.index.Sorted (· < ·))
    (hvoc : ∀ c ∈ W.cols, c.1.2 ∈ HOURLY_VARIABLES)
    (he : W.index = [] → W.cols = []) :
    tidy_open_meteo_dataframe (wideFormOfTidy (tidy_open_meteo_dataframe W)) =
      tidy_open_meteo_dataframe W := by
  by_cases hc : W.cols = []
  · have hm : tidyModels W = [] := by rw [tidyModels, hc]; rfl
    have hv0 : tidyVarsSrc W = [] := by rw [tidyVarsSrc, hc]; rfl
    have hT : tidy_open_meteo_dataframe W = ⟨[], [], []⟩ := by
      refine TidyTable_ext ?_ ?_ ?_
      · rw [tidy_rows_eq, hm]
        simp only [List.map_nil]
        exact flatMap_const_nil _
      · rw [tidy_vars_eq, hv0]
        rfl
      · rw [tidy_data_eq, hm]
        simp only [List.map_nil]
        exact flatMap_const_nil _
    rw [hT]
    rfl
  · have hi : W.index ≠ [] := fun h => hc (he h)
    have hnd : W.index.Nodup := hs.nodup
    have hvarsnd : ((tidyVarsSrc W).map renameVar).Nodup := tidy_vars_nodup hvoc
    have hmodels2 := tidyModels_wideForm_tidy W hnd hc hi
    have hvars2 := tidyVarsSrc_wideForm_tidy W hnd hvoc hc hi
    have hWindex : (wideFormOfTidy (tidy_open_meteo_dataframe W)).index = W.index := by
      simp only [wideFormOfTidy]
      exact wideIndexOfTidy_tidy hnd hc
    refine TidyTable_ext ?_ ?_ ?_
    · rw [tidy_rows_eq, tidy_rows_eq, hWindex, hmodels2]
    · rw [tidy_vars_eq, tidy_vars_eq, hvars2, List.map_map]
      exact List.map_congr_left (fun a _ => renameVar_idem a)
    · rw [tidy_data_eq, tidy_data_eq, hWindex, hmodels2, hvars2]
      refine flatMap_congr_mem ?_
      intro t htW
      refine List.map_congr_left ?_
      intro m hmW
      rw [List.map_map]
      refine List.map_congr_left ?_
      intro v hvW
      exact wideCell_wideForm_tidy hnd hvarsnd hc hi htW hmW hvW

theorem lookupTime_not_mem {times : List Nat} {vals : List Int} {t : Nat}
    (h : t ∉ times) : lookupTime times vals t = none := by
  have hf : times.findIdx? (fun x => decide (x = t)) = none := by
    rw [List.findIdx?_eq_none_iff]
    intro x hx
    simp only [decide_eq_false_iff_not]
    intro hxt
    exact h (hxt ▸ hx)
  rw [lookupTime, hf]
  rfl

theorem reshaper_index_eq (rs : List ModelHourlyData) :
    (open_meteo_response_to_dataframe rs).index =
      sortedUnion (rs.map (fun r => r.time)) := rfl

theorem reshaper_cols_eq (rs : List ModelHourlyData) :
    (open_meteo_response_to_dataframe rs).cols =
      rs.flatMap (fun r => r.values.map (fun p =>
        ((r.model, p.1),
          (sortedUnion (rs.map (fun r2 => r2.time))).map
            (fun t => lookupTime r.time p.2 t)))) := rfl

/-- C1: For per-model responses with differing timestamp sets, the Wide
Reshaper's row index is exactly the union of the models' timestamp sets
(no timestamp is dropped), and for every (model, variable) column the
entry at every timestamp the model's response does not cover is the
missing-value marker. -/
theorem c1_wide_reshaper_union_missing (A B : ModelHourlyData)
    (hdiff : A.time ≠ B.time) :
    (∀ t, t ∈ (open_meteo_response_to_dataframe [A, B]).index ↔
      (t ∈ A.time ∨ t ∈ B.time)) ∧
    (∀ r, (r = A ∨ r = B) → ∀ p ∈ r.values,
      ∃ col, ((r.model, p.1), col) ∈ (open_meteo_response_to_dataframe [A, B]).cols ∧
        ∀ (i t : Nat), (open_meteo_response_to_dataframe [A, B]).index[i]? = some t →
          t ∉ r.time → col[i]? = some none) := by
  constructor
  · intro t
    rw [reshaper_index_eq, mem_sortedUnion]
    simp
  · intro r hr p hp
    refine ⟨(sortedUnion ([A, B].map (fun r2 => r2.time))).map
      (fun t => lookupTime r.time p.2 t), ?_, ?_⟩
    · rw [reshaper_cols_eq]
      refine List.mem_flatMap.mpr ⟨r, ?_, ?_⟩
      · rcases hr with rfl | rfl <;> simp
      · exact List.mem_map.mpr ⟨p, hp, rfl⟩
    · intro i t hit hnt
      rw [reshaper_index_eq] at hit
      rw [List.getElem?_map, hit]
      simp [lookupTime_not_mem hnt]

/-- C7: Every WideTable produced by the Wide Reshaper from the responses of
a Query (one response per queried model, one array per requested variable)
has a strictly increasing, duplicate-free timestamp index, and a column
for every requested (model, variable) pair. -/
theorem c7_widetable_invariant (rs : List ModelHourlyData)
    (q : ArchiveQueryParameters)
    (h1 : rs.map (fun r => r.model) = q.models)
    (h2 : ∀ r ∈ rs, r.values.map Prod.fst = q.hourly) :
    (open_meteo_response_to_dataframe rs).index.Sorted (· < ·) ∧
    (open_meteo_response_to_dataframe rs).index.Nodup ∧
    ∀ m ∈ q.models, ∀ v ∈ q.hourly, ∃ col,
      ((m, v), col) ∈ (open_meteo_response_to_dataframe rs).cols := by
  refine ⟨?_, ?_, ?_⟩
  · rw [reshaper_index_eq]
    exact sortedUnion_sorted _
  · rw [reshaper_index_eq]
    exact sortedUnion_nodup _
  · intro m hm v hv
    rw [← h1] at hm
    rcases List.mem_map.mp hm with ⟨r, hr, rfl⟩
    rw [← h2 r hr] at hv
    rcases List.mem_map.mp hv with ⟨p, hp, rfl⟩
    refine ⟨(sortedUnion (rs.map (fun r2 => r2.time))).map
      (fun t => lookupTime r.time p.2 t), ?_⟩
    rw [reshaper_cols_eq]
    exact List.mem_flatMap.mpr ⟨r, hr, List.mem_map.mpr ⟨p, hp, rfl⟩⟩

theorem mem_ite_nil_singleton {P : Prop} [Decidable P] {s f : String} :
    (f ∈ (if P then ([] : List String) else [s])) ↔ (f = s ∧ ¬P) := by
  split <;> rename_i h <;> simp [h]

theorem ite_nil_singleton_eq_nil {P : Prop} [Decidable P] {s : String} :
    ((if P then ([] : List String) else [s]) = []) ↔ P := by
  split <;> rename_i h <;> simp [h]

theorem mem_queryViolations (q : ArchiveQueryParameters) (f : String) :
    f ∈ queryViolations q ↔ fieldViolated q f := by
  unfold queryViolations fieldViolated
  simp only [List.mem_append, mem_ite_nil_singleton, or_assoc]

theorem queryViolations_eq_nil_iff (q : ArchiveQueryParameters) :
    queryViolations q = [] ↔ queryDomainsOk q := by
  unfold queryViolations queryDomainsOk
  simp only [List.append_eq_nil, ite_nil_singleton_eq_nil, and_assoc]

/-- C3: The Query Builder succeeds exactly on queries whose fields all lie
in their declared domains, and on failure the ValidationError names every
violated field (not just the first): a field name appears in the error
list if and only if that field's constraint is violated.  Construction is
a pure function of the query. -/
theorem c3_query_builder_validation (q : ArchiveQueryParameters) :
    (validateArchiveQuery q = .ok q ↔ queryDomainsOk q) ∧
    (∀ f : String,
      (∃ errs, validateArchiveQuery q = .error errs ∧ f ∈ errs) ↔ fieldViolated q f) := by
  constructor
  · rw [validateArchiveQuery]
    split
    · rename_i h
      simp [(queryViolations_eq_nil_iff q).mp h]
    · rename_i h
      have hnd : ¬ queryDomainsOk q := fun hd => h ((queryViolations_eq_nil_iff q).mpr hd)
      exact iff_of_false (fun hh => nomatch hh) hnd
  · intro f
    constructor
    · rintro ⟨errs, herr, hf⟩
      rw [validateArchiveQuery] at herr
      split at herr
      · exact nomatch herr
      · injection herr with h'
        rw [← h'] at hf
        exact (mem_queryViolations q f).mp hf
    · intro hf
      have hfm : f ∈ queryViolations q := (mem_queryViolations q f).mpr hf
      have hne : queryViolations q ≠ [] := by
        intro h0
        rw [h0] at hfm
        cases hfm
      exact ⟨queryViolations q, by rw [validateArchiveQuery, if_neg hne], hfm⟩

theorem tidyModels_reshaper (rs : List ModelHourlyData) (q : ArchiveQueryParameters)
    (h1 : rs.map (fun r => r.model) = q.models)
    (h2 : ∀ r ∈ rs, r.values.map Prod.fst = q.hourly)
    (h3 : q.hourly ≠ []) (h6 : q.models.Nodup) :
    tidyModels (open_meteo_response_to_dataframe rs) = q.models := by
  rw [tidyModels, reshaper_cols_eq, List.map_flatMap]
  rw [flatMap_congr_mem (g := fun r => r.values.map (fun _ => r.model))
    (fun r _ => by rw [List.map_map]; rfl)]
  have hnd : (rs.map (fun r => r.model)).Nodup := by rw [h1]; exact h6
  have hne : ∀ r ∈ rs, r.values ≠ [] := by
    intro r hr hv
    apply h3
    rw [← h2 r hr, hv]
    rfl
  rw [firstOccs_flatMap_blocks hnd hne, h1]

theorem tidyVarsSrc_reshaper (rs : List ModelHourlyData) (q : ArchiveQueryParameters)
    (h1 : rs.map (fun r => r.model) = q.models)
    (h2 : ∀ r ∈ rs, r.values.map Prod.fst = q.hourly)
    (h4 : q.hourly.Nodup) (h5 : q.models ≠ []) :
    tidyVarsSrc (open_meteo_response_to_dataframe rs) = q.hourly := by
  rw [tidyVarsSrc, reshaper_cols_eq, List.map_flatMap]
  rw [flatMap_congr_mem (g := fun _ => q.hourly)
    (fun r hr => by rw [List.map_map]; exact h2 r hr)]
  have hrs : rs ≠ [] := by
    intro h0
    apply h5
    rw [← h1, h0]
    rfl
  exact firstOccs_flatMap_const h4 hrs

/-- C9: Round-trip: tidying the WideTable built from responses carrying
exactly the variables and models of the originating Query yields a
TidyTable with one row per (distinct response timestamp, queried model)
pair — row count = number of distinct timestamps times the number of
queried models — and whose column set is the canonical renaming of the
requested variables. -/
theorem c9_roundtrip_row_count_and_columns
    (q : ArchiveQueryParameters) (rs : List ModelHourlyData)
    (h1 : rs.map (fun r => r.model) = q.models)
    (h2 : ∀ r ∈ rs, r.values.map Prod.fst = q.hourly)
    (h3 : q.hourly ≠ []) (h4 : q.hourly.Nodup)
    (h5 : q.models ≠ []) (h6 : q.models.Nodup) :
    (tidy_open_meteo_dataframe (open_meteo_response_to_dataframe rs)).rows.length =
      ((rs.flatMap (fun r => r.time)).dedup).length * q.models.length ∧
    (tidy_open_meteo_dataframe (open_meteo_response_to_dataframe rs)).vars =
      q.hourly.map renameVar := by
  have hmW := tidyModels_reshaper rs q h1 h2 h3 h6
  have hvW := tidyVarsSrc_reshaper rs q h1 h2 h4 h5
  constructor
  · rw [tidy_rows_eq, hmW]
    rw [length_flatMap_const (k := q.models.length) (fun t _ => by rw [List.length_map])]
    have hperm : (open_meteo_response_to_dataframe rs).index.Perm
        ((rs.flatMap (fun r => r.time)).dedup) := by
      rw [reshaper_index_eq]
      refine (List.perm_ext_iff_of_nodup (sortedUnion_nodup _) (List.nodup_dedup _)).mpr ?_
      intro a
      rw [mem_sortedUnion, List.mem_dedup, List.mem_flatMap]
      constructor
      · rintro ⟨l, hl, hal⟩
        rcases List.mem_map.mp hl with ⟨r, hr, rfl⟩
        exact ⟨r, hr, hal⟩
      · rintro ⟨r, hr, har⟩
        exact ⟨r.time, List.mem_map_of_mem _ hr, har⟩
    rw [reshaper_index_eq] at hperm ⊢
    rw [hperm.length_eq]
  · rw [tidy_vars_eq, hvW]

theorem hoursOfRange_sorted (s e : Date) : (hoursOfRange s e).Sorted (· < ·) := by
  rw [hoursOfRange]
  exact List.Pairwise.map _ (fun a b hab => by omega) (List.sorted_lt_range _)

theorem insertSorted_of_all_lt {t : Nat} {l : List Nat}
    (h : ∀ x ∈ l, x < t) : insertSorted t l = l ++ [t] := by
  induction l with
  | nil => rfl
  | cons a l ih =>
    have ha : a < t := h a (List.mem_cons_self a l)
    rw [insertSorted, if_neg (by omega), if_neg (by omega), List.cons_append,
      ih (fun x hx => h x (List.mem_cons_of_mem a hx))]

theorem insertAll_sorted_disjoint :
    ∀ (ts acc : List Nat), ts.Sorted (· < ·) → acc.Sorted (· < ·) →
      (∀ x ∈ acc, ∀ y ∈ ts, x < y) → insertAll acc ts = acc ++ ts := by
  intro ts
  induction ts with
  | nil =>
    intro acc _ _ _
    rw [insertAll, List.foldl_nil, List.append_nil]
  | cons t ts ih =>
    intro acc hts hacc hlt
    rw [List.sorted_cons] at hts
    have h1 : insertSorted t acc = acc ++ [t] :=
      insertSorted_of_all_lt (fun x hx => hlt x hx t (List.mem_cons_self t ts))
    rw [insertAll, List.foldl_cons]
    have h2 : (acc ++ [t]).Sorted (· < ·) := by
      rw [List.Sorted, List.pairwise_append]
      refine ⟨hacc, by simp, ?_⟩
      intro a ha b hb
      rw [List.mem_singleton] at hb
      subst hb
      exact hlt a ha b (List.mem_cons_self b ts)
    have h3 : ∀ x ∈ acc ++ [t], ∀ y ∈ ts, x < y := by
      intro x hx y hy
      rcases List.mem_append.mp hx with hx | hx
      · exact hlt x hx y (List.mem_cons_of_mem t hy)
      · rw [List.mem_singleton] at hx
        subst hx
        exact hts.1 y hy
    have := ih (acc ++ [t]) hts.2 h2 h3
    rw [show (List.foldl (fun a t => insertSorted t a) (insertSorted t acc) ts) =
        insertAll (insertSorted t acc) ts from rfl, h1, this, List.append_assoc]
    rfl

theorem sortedUnion_singleton {ts : List Nat} (h : ts.Sorted (· < ·)) :
    sortedUnion [ts] = ts := by
  rw [sortedUnion, List.foldl_cons, List.foldl_nil]
  simpa using insertAll_sorted_disjoint ts [] h (by simp) (by simp)

theorem scenarioResponse_eq :
    load_open_meteo_archive_data zeroArchive scenarioQuery =
      [⟨"best_match", hoursOfRange ⟨2010, 3, 21⟩ ⟨2010, 3, 31⟩,
        [("temperature_2m",
          (hoursOfRange ⟨2010, 3, 21⟩ ⟨2010, 3, 31⟩).map (fun _ => 0))]⟩] := rfl

theorem scenarioHours_length :
    (hoursOfRange ⟨2010, 3, 21⟩ ⟨2010, 3, 31⟩).length = 264 := by
  rw [hoursOfRange, List.length_map, List.length_range]
  decide

theorem scenarioWide_index :
    (open_meteo_response_to_dataframe
      (load_open_meteo_archive_data zeroArchive scenarioQuery)).index =
      hoursOfRange ⟨2010, 3, 21⟩ ⟨2010, 3, 31⟩ := by
  rw [reshaper_index_eq]
  exact sortedUnion_singleton (hoursOfRange_sorted _ _)

/-- C2 counterexample: under the spec's own closed-date-range semantics,
the scenario query 2010-03-21 .. 2010-03-31 covers 11 calendar days, so
the modelled fetch returns hourly arrays of 264 points, not the 240 the
claim states. -/
theorem c2_scenario_counterexample :
    ((load_open_meteo_archive_data zeroArchive scenarioQuery).map
      (fun r => r.time.length) ≠ [240]) ∧
    ((load_open_meteo_archive_data zeroArchive scenarioQuery).map
      (fun r => r.time.length) = [264]) := by
  have h : (load_open_meteo_archive_data zeroArchive scenarioQuery).map
      (fun r => r.time.length) = [264] := by
    rw [scenarioResponse_eq]
    rw [List.map_cons, List.map_nil, scenarioHours_length]
  exact ⟨by rw [h]; decide, h⟩

/-- C2 (amended): for the scenario query (closed range 2010-03-21 ..
2010-03-31, one variable, one model) the modelled fetch returns hourly
arrays of exactly 264 points (11 days), the Wide Reshaper returns a
264-row, 1-column WideTable, and the Tidy Normalizer returns a 264-row
TidyTable indexed by (timestamp, "best_match") with one "temperature_2m"
column that passes TidyTable schema validation. -/
theorem c2_scenario_pipeline :
    ((load_open_meteo_archive_data zeroArchive scenarioQuery).map
      (fun r => r.time.length) = [264]) ∧
    ((open_meteo_response_to_dataframe
      (load_open_meteo_archive_data zeroArchive scenarioQuery)).index.length = 264) ∧
    ((open_meteo_response_to_dataframe
      (load_open_meteo_archive_data zeroArchive scenarioQuery)).cols.map Prod.fst =
      [("best_match", "temperature_2m")]) ∧
    ((tidy_open_meteo_dataframe (open_meteo_response_to_dataframe
      (load_open_meteo_archive_data zeroArchive scenarioQuery))).rows.length = 264) ∧
    ((tidy_open_meteo_dataframe (open_meteo_response_to_dataframe
      (load_open_meteo_archive_data zeroArchive scenarioQuery))).vars =
      ["temperature_2m"]) ∧
    (∀ row ∈ (tidy_open_meteo_dataframe (open_meteo_response_to_dataframe
      (load_open_meteo_archive_data zeroArchive scenarioQuery))).rows,
      row.2 = "best_match") ∧
    (validateTidyTable (tidy_open_meteo_dataframe (open_meteo_response_to_dataframe
        (load_open_meteo_archive_data zeroArchive scenarioQuery))) =
      .ok (tidy_open_meteo_dataframe (open_meteo_response_to_dataframe
        (load_open_meteo_archive_data zeroArchive scenarioQuery)))) := by
  have hmodels : tidyModels (open_meteo_response_to_dataframe
      (load_open_meteo_archive_data zeroArchive scenarioQuery)) = ["best_match"] := rfl
  have hvsrc : tidyVarsSrc (open_meteo_response_to_dataframe
      (load_open_meteo_archive_data zeroArchive scenarioQuery)) = ["temperature_2m"] := rfl
  have hvars : (tidy_open_meteo_dataframe (open_meteo_response_to_dataframe
      (load_open_meteo_archive_data zeroArchive scenarioQuery))).vars =
      ["temperature_2m"] := by
    rw [tidy_vars_eq, hvsrc]
    decide
  refine ⟨(c2_scenario_counterexample).2, ?_, ?_, ?_, hvars, ?_, ?_⟩
  · rw [scenarioWide_index, scenarioHours_length]
  · rfl
  · rw [tidy_rows_eq, hmodels]
    have hlen := length_flatMap_const
      (l := (open_meteo_response_to_dataframe
        (load_open_meteo_archive_data zeroArchive scenarioQuery)).index)
      (f := fun t => (["best_match"] : List String).map (fun m => (t, m)))
      (k := 1) (fun t _ => rfl)
    rw [hlen, scenarioWide_index, scenarioHours_length]
  · intro row hrow
    rw [tidy_rows_eq, hmodels] at hrow
    rcases List.mem_flatMap.mp hrow with ⟨t, _, hmem⟩
    rcases List.mem_map.mp hmem with ⟨m, hm, rfl⟩
    rw [List.mem_singleton] at hm
    rw [hm]
  · have hnov : tidyViolations (tidy_open_meteo_dataframe (open_meteo_response_to_dataframe
        (load_open_meteo_archive_data zeroArchive scenarioQuery))) = [] := by
      rw [tidyViolations, hvars]
      decide
    rw [validateTidyTable, if_pos hnov]

/-- C4 counterexample: on a workbook merely missing a required data sheet,
the loader of the quoted source body reads the remaining sheets, builds the
table, and only then fails post-load validation — it raises SchemaError,
not the FileFormatError the claim states. -/
theorem c4_missing_sheet_counterexample :
    load_chmi_data chmiMissingSheetFile = .error .schemaError ∧
    load_chmi_data chmiMissingSheetFile ≠ .error .fileFormatError := by
  have h : load_chmi_data chmiMissingSheetFile = .error .schemaError := rfl
  refine ⟨h, ?_⟩
  rw [h]
  intro hh
  injection hh with h2
  exact ChmiLoadError.noConfusion h2

/-- C4 (amended): the Historical Archive Loader raises FileFormatError when
the workbook's sheet structure cannot be read at all (no sheets); a
readable workbook whose loaded table fails post-load validation — e.g. one
missing a required data sheet — raises SchemaError instead; in either case
no table is returned, and every returned table passed schema validation. -/
theorem c4_chmi_loader_errors (file : List ChmiSheet) :
    (file = [] → load_chmi_data file = .error .fileFormatError) ∧
    (file ≠ [] → chmiSchemaOk (chmiRawTable file) = false →
      load_chmi_data file = .error .schemaError) ∧
    (∀ t, load_chmi_data file = .ok t → chmiSchemaOk t = true) := by
  refine ⟨?_, ?_, ?_⟩
  · intro h
    rw [load_chmi_data, if_pos h]
  · intro h1 h2
    simp [load_chmi_data, h1, h2]
  · intro t h
    rw [load_chmi_data] at h
    by_cases hf : file = []
    · rw [if_pos hf] at h
      exact nomatch h
    · rw [if_neg hf] at h
      by_cases hs : chmiSchemaOk (chmiRawTable file) = true
      · rw [if_pos hs] at h
        injection h with h'
        rw [← h']
        exact hs
      · rw [if_neg hs] at h
        exact nomatch h

/-- C5: On a readable workbook whose loaded table passes validation, the
loader returns the table assembled from every sheet except the first
(cover) sheet: one column per data sheet, each cleaned (presentation rows
stripped) and renamed through the translation table with spaces replaced
by underscores, and the result contains every canonical schema column. -/
theorem c5_chmi_loader_pipeline (file : List ChmiSheet)
    (h1 : file ≠ []) (h2 : chmiSchemaOk (chmiRawTable file) = true) :
    load_chmi_data file = .ok (chmiRawTable file) ∧
    (chmiRawTable file).cols.length = file.length - 1 ∧
    (∀ c ∈ (chmiRawTable file).cols, ∃ s ∈ file.tail,
      c = (underscoreColumn (renameChmiColumn s.label),
        s.cells.drop s.presentationRows)) ∧
    (∀ cname ∈ CHMI_COLUMNS, cname ∈ (chmiRawTable file).cols.map Prod.fst) := by
  refine ⟨?_, ?_, ?_, ?_⟩
  · simp [load_chmi_data, h1, h2]
  · simp [chmiRawTable]
  · intro c hc
    simp only [chmiRawTable, List.map_map] at hc
    rcases List.mem_map.mp hc with ⟨s, hs, rfl⟩
    exact ⟨s, hs, rfl⟩
  · intro cname hn
    have h3 := List.all_eq_true.mp h2 cname hn
    exact of_decide_eq_true h3

/-- C8: TidyTable schema validation enforces the declared humidity bounds:
a table whose humidity column holds 150 fails with a SchemaError naming
the humidity column, while the same table with humidity 50 validates. -/
theorem c8_tidy_schema_humidity_bounds :
    validateTidyTable ⟨[(0, "best_match")], ["humidity"], [[some 150]]⟩ =
      .error ["humidity"] ∧
    validateTidyTable ⟨[(0, "best_match")], ["humidity"], [[some 50]]⟩ =
      .ok ⟨[(0, "best_match")], ["humidity"], [[some 50]]⟩ := by
  exact ⟨rfl, rfl⟩

theorem length_filter_zip_snd {α β : Type} (p : β → Bool) :
    ∀ (l1 : List α) (l2 : List β), l1.length = l2.length →
      ((l1.zip l2).filter (fun x => p x.2)).length = (l2.filter p).length := by
  intro l1
  induction l1 with
  | nil =>
    intro l2 h
    rw [List.length_nil] at h
    rw [(List.eq_nil_of_length_eq_zero h.symm : l2 = [])]
    rfl
  | cons a l1 ih =>
    intro l2 h
    cases l2 with
    | nil => simp at h
    | cons b l2 =>
      have h' : l1.length = l2.length := by simpa using h
      by_cases hpb : p b = true
      · simp [List.filter_cons, hpb, ih l2 h']
      · simp [List.filter_cons, hpb, ih l2 h']

/-- C10: `multiply_large` returns a dataframe with exactly
`len(df) + 2 * k` rows, where `k` counts the rows whose `column1` strictly
exceeds `limit`, and the result carries a fresh zero-based integer row
index (the original index is dropped). -/
theorem c10_multiply_large_rows (df : PdDataFrame) (limit : Int)
    (h : df.index.length = df.rows.length) :
    (multiply_large df limit).rows.length =
      df.rows.length +
        2 * (df.rows.filter (fun r => decide (limit < r.column1))).length ∧
    (multiply_large df limit).index =
      (List.range ((multiply_large df limit).rows.length)).map Int.ofNat := by
  have hzip : (df.index.zip df.rows).length = df.rows.length := by
    rw [List.length_zip, h, Nat.min_self]
  have hlarge : ((df.index.zip df.rows).filter
      (fun p => decide (limit < p.2.column1))).length =
      (df.rows.filter (fun r => decide (limit < r.column1))).length :=
    length_filter_zip_snd (fun r => decide (limit < r.column1)) df.index df.rows h
  constructor
  · simp only [multiply_large]
    rw [List.length_map, List.length_append, List.length_append, hzip, hlarge]
    omega
  · simp only [multiply_large]
    rw [List.length_map]

/-- Witness for C1 at the spec's instance: model A with timestamps {1, 2},
model B with {2, 3}; the index is exactly [1, 2, 3] and the cells at
(A, 3) and (B, 1) are missing-value markers. -/
theorem c1_wide_reshaper_union_missing_witness :
    ((open_meteo_response_to_dataframe
        [⟨"A", [1, 2], [("temperature_2m", [10, 11])]⟩,
         ⟨"B", [2, 3], [("temperature_2m", [20, 21])]⟩]).index = [1, 2, 3]) ∧
    (wideCell (open_meteo_response_to_dataframe
        [⟨"A", [1, 2], [("temperature_2m", [10, 11])]⟩,
         ⟨"B", [2, 3], [("temperature_2m", [20, 21])]⟩]) 3 "A" "temperature_2m" = none) ∧
    (wideCell (open_meteo_response_to_dataframe
        [⟨"A", [1, 2], [("temperature_2m", [10, 11])]⟩,
         ⟨"B", [2, 3], [("temperature_2m", [20, 21])]⟩]) 1 "B" "temperature_2m" = none) ∧
    (∀ t, t ∈ (open_meteo_response_to_dataframe
        [⟨"A", [1, 2], [("temperature_2m", [10, 11])]⟩,
         ⟨"B", [2, 3], [("temperature_2m", [20, 21])]⟩]).index ↔
      (t ∈ [1, 2] ∨ t ∈ [2, 3])) :=
  ⟨by decide, by decide, by decide,
   (c1_wide_reshaper_union_missing
      ⟨"A", [1, 2], [("temperature_2m", [10, 11])]⟩
      ⟨"B", [2, 3], [("temperature_2m", [20, 21])]⟩ (by decide)).1⟩

/-- Witness for C3: the valid scenario query is accepted, and a query with
latitude 100 and an empty model list is rejected with an error naming both
violated fields. -/
theorem c3_query_builder_validation_witness :
    validateArchiveQuery scenarioQuery = .ok scenarioQuery ∧
    (∃ errs, validateArchiveQuery
        ⟨100, 14.26, ["temperature_2m"], ⟨2010, 3, 21⟩, ⟨2010, 3, 31⟩, []⟩ =
        .error errs ∧ "latitude" ∈ errs) ∧
    (∃ errs, validateArchiveQuery
        ⟨100, 14.26, ["temperature_2m"], ⟨2010, 3, 21⟩, ⟨2010, 3, 31⟩, []⟩ =
        .error errs ∧ "models" ∈ errs) :=
  ⟨(c3_query_builder_validation scenarioQuery).1.mpr
    ⟨⟨by norm_num [scenarioQuery], by norm_num [scenarioQuery]⟩,
     ⟨by norm_num [scenarioQuery], by norm_num [scenarioQuery]⟩,
     by decide, by decide, by decide⟩,
   ((c3_query_builder_validation
      ⟨100, 14.26, ["temperature_2m"], ⟨2010, 3, 21⟩, ⟨2010, 3, 31⟩, []⟩).2
      "latitude").mpr (Or.inl ⟨rfl, by norm_num⟩),
   ((c3_query_builder_validation
      ⟨100, 14.26, ["temperature_2m"], ⟨2010, 3, 21⟩, ⟨2010, 3, 31⟩, []⟩).2
      "models").mpr
      (Or.inr (Or.inr (Or.inr (Or.inr ⟨rfl, fun hcon => hcon.1 rfl⟩))))⟩

/-- Witness for C4: the empty workbook gets FileFormatError, the workbook
missing a data sheet gets SchemaError, and the table the loader returns on
the complete workbook passed schema validation. -/
theorem c4_chmi_loader_errors_witness :
    load_chmi_data [] = .error .fileFormatError ∧
    load_chmi_data chmiMissingSheetFile = .error .schemaError ∧
    chmiSchemaOk (chmiRawTable chmiGoodFile) = true :=
  ⟨(c4_chmi_loader_errors []).1 rfl,
   (c4_chmi_loader_errors chmiMissingSheetFile).2.1 (by decide) (by decide),
   (c4_chmi_loader_errors chmiGoodFile).2.2 (chmiRawTable chmiGoodFile) rfl⟩

/-- Witness for C5 on the complete sample workbook. -/
theorem c5_chmi_loader_pipeline_witness :
    load_chmi_data chmiGoodFile = .ok (chmiRawTable chmiGoodFile) ∧
    (chmiRawTable chmiGoodFile).cols.length = chmiGoodFile.length - 1 ∧
    (∀ c ∈ (chmiRawTable chmiGoodFile).cols, ∃ s ∈ chmiGoodFile.tail,
      c = (underscoreColumn (renameChmiColumn s.label),
        s.cells.drop s.presentationRows)) ∧
    (∀ cname ∈ CHMI_COLUMNS,
      cname ∈ (chmiRawTable chmiGoodFile).cols.map Prod.fst) :=
  c5_chmi_loader_pipeline chmiGoodFile (by decide) (by decide)

/-- Witness for C6 on a concrete two-model wide table. -/
theorem c6_tidy_normalizer_idempotent_witness :
    (([1, 2] : List Nat).Sorted (· < ·)) ∧
    tidy_open_meteo_dataframe (wideFormOfTidy (tidy_open_meteo_dataframe
      ⟨[1, 2], [(("best_match", "temperature_2m"), [some 1, none]),
                (("era5", "relativehumidity_2m"), [some 5, some 6])]⟩)) =
      tidy_open_meteo_dataframe
        ⟨[1, 2], [(("best_match", "temperature_2m"), [some 1, none]),
                  (("era5", "relativehumidity_2m"), [some 5, some 6])]⟩ :=
  ⟨by decide,
   c6_tidy_normalizer_idempotent
     ⟨[1, 2], [(("best_match", "temperature_2m"), [some 1, none]),
               (("era5", "relativehumidity_2m"), [some 5, some 6])]⟩
     (by decide) (by decide) (by decide)⟩

/-- Witness for C7 on the scenario query with one concrete response. -/
theorem c7_widetable_invariant_witness :
    (open_meteo_response_to_dataframe
      [⟨"best_match", [0, 1], [("temperature_2m", [1, 2])]⟩]).index.Sorted (· < ·) ∧
    (open_meteo_response_to_dataframe
      [⟨"best_match", [0, 1], [("temperature_2m", [1, 2])]⟩]).index.Nodup ∧
    ∀ m ∈ scenarioQuery.models, ∀ v ∈ scenarioQuery.hourly, ∃ col,
      ((m, v), col) ∈ (open_meteo_response_to_dataframe
        [⟨"best_match", [0, 1], [("temperature_2m", [1, 2])]⟩]).cols :=
  c7_widetable_invariant [⟨"best_match", [0, 1], [("temperature_2m", [1, 2])]⟩]
    scenarioQuery (by decide) (by decide)

/-- Witness for C9 on a two-model, two-variable response pair: 3 distinct
timestamps, 2 models, 6 tidy rows, canonical columns. -/
theorem c9_roundtrip_row_count_and_columns_witness :
    ((tidy_open_meteo_dataframe (open_meteo_response_to_dataframe
       [⟨"best_match", [1, 2], [("temperature_2m", [1, 2]),
                                ("relativehumidity_2m", [3, 4])]⟩,
        ⟨"era5", [2, 3], [("temperature_2m", [5, 6]),
                          ("relativehumidity_2m", [7, 8])]⟩])).rows.length = 6) ∧
    ((tidy_open_meteo_dataframe (open_meteo_response_to_dataframe
       [⟨"best_match", [1, 2], [("temperature_2m", [1, 2]),
                                ("relativehumidity_2m", [3, 4])]⟩,
        ⟨"era5", [2, 3], [("temperature_2m", [5, 6]),
                          ("relativehumidity_2m", [7, 8])]⟩])).rows.length =
      (([⟨"best_match", [1, 2], [("temperature_2m", [1, 2]),
                                 ("relativehumidity_2m", [3, 4])]⟩,
         ⟨"era5", [2, 3], [("temperature_2m", [5, 6]),
                           ("relativehumidity_2m", [7, 8])]⟩] :
          List ModelHourlyData).flatMap (fun r => r.time)).dedup.length *
        (⟨50.1, 14.26, ["temperature_2m", "relativehumidity_2m"], ⟨2010, 3, 21⟩,
          ⟨2010, 3, 31⟩, ["best_match", "era5"]⟩ :
          ArchiveQueryParameters).models.length ∧
      (tidy_open_meteo_dataframe (open_meteo_response_to_dataframe
       [⟨"best_match", [1, 2], [("temperature_2m", [1, 2]),
                                ("relativehumidity_2m", [3, 4])]⟩,
        ⟨"era5", [2, 3], [("temperature_2m", [5, 6]),
                          ("relativehumidity_2m", [7, 8])]⟩])).vars =
      (⟨50.1, 14.26, ["temperature_2m", "relativehumidity_2m"], ⟨2010, 3, 21⟩,
        ⟨2010, 3, 31⟩, ["best_match", "era5"]⟩ :
        ArchiveQueryParameters).hourly.map renameVar) :=
  ⟨by decide,
   c9_roundtrip_row_count_and_columns
     ⟨50.1, 14.26, ["temperature_2m", "relativehumidity_2m"], ⟨2010, 3, 21⟩,
      ⟨2010, 3, 31⟩, ["best_match", "era5"]⟩
     [⟨"best_match", [1, 2], [("temperature_2m", [1, 2]),
                              ("relativehumidity_2m", [3, 4])]⟩,
      ⟨"era5", [2, 3], [("temperature_2m", [5, 6]),
                        ("relativehumidity_2m", [7, 8])]⟩]
     (by decide) (by decide) (by decide) (by decide) (by decide) (by decide)⟩

/-- Witness for C10 on a three-row dataframe with original index [5, 7, 9]
and limit 2 (two large rows, so 3 + 4 = 7 result rows, reindexed 0..6). -/
theorem c10_multiply_large_rows_witness :
    ((multiply_large ⟨[5, 7, 9],
        [⟨3, none, "a"⟩, ⟨-1, none, "b"⟩, ⟨10, none, "c"⟩]⟩ 2).rows.length = 7) ∧
    ((multiply_large ⟨[5, 7, 9],
        [⟨3, none, "a"⟩, ⟨-1, none, "b"⟩, ⟨10, none, "c"⟩]⟩ 2).index =
      [0, 1, 2, 3, 4, 5, 6]) ∧
    ((multiply_large ⟨[5, 7, 9],
        [⟨3, none, "a"⟩, ⟨-1, none, "b"⟩, ⟨10, none, "c"⟩]⟩ 2).rows.length =
      ([⟨3, none, "a"⟩, ⟨-1, none, "b"⟩, ⟨10, none, "c"⟩] : List DFRow).length +
        2 * (([⟨3, none, "a"⟩, ⟨-1, none, "b"⟩, ⟨10, none, "c"⟩] : List DFRow).filter
          (fun r => decide ((2 : Int) < r.column1))).length ∧
      (multiply_large ⟨[5, 7, 9],
        [⟨3, none, "a"⟩, ⟨-1, none, "b"⟩, ⟨10, none, "c"⟩]⟩ 2).index =
      (List.range ((multiply_large ⟨[5, 7, 9],
        [⟨3, none, "a"⟩, ⟨-1, none, "b"⟩, ⟨10, none, "c"⟩]⟩ 2).rows.length)).map
        Int.ofNat) :=
  ⟨by decide, by decide,
   c10_multiply_large_rows
     ⟨[5, 7, 9], [⟨3, none, "a"⟩, ⟨-1, none, "b"⟩, ⟨10, none, "c"⟩]⟩ 2 (by decide)⟩
